import Mathlib

/-!
Verification of `src/j5/src/j5/Basic/DatabaseWriteLock.py` against its
natural-language specification.

The Python module keeps a process-wide table `thread_busy` which maps the
single lock key `None` to a list `[thread_id, acquired_at, reentrancy_count,
warned]`, protected by the condition `database_write_lock`.  We embed that
table as `Option HolderState` (the one key that is ever used), times as `Int`,
and the two operations `get_db_lock` / `release_db_lock` as executable Lean
functions.  The blocking wait loop of `get_db_lock` is driven by a schedule of
wake observations (the table contents and clock value seen at each wake of
`database_write_lock.wait`), and external collaborators (thread introspection,
async raise, creole rendering, admin e-mail, server-mode query) are modelled
by boolean success flags; each performed collaborator call is recorded as an
event together with whether the table mutex was held at that moment.
-/

set_option autoImplicit false

namespace DatabaseWriteLock

/-- The value stored at `thread_busy[None]`:
the Python list `[thread_id, acquired_at, reentrancy_count, warned]`. -/
structure HolderState where
  holder : Nat
  acquired_at : Int
  count : Int
  warned : Bool
deriving DecidableEq, Repr

/-- Default of `MAX_LOCK_WAIT_TIMEOUT` in the source (seconds). -/
def MAX_LOCK_WAIT_TIMEOUT : Int := 120

/-- Default of `LOCK_WARNING_TIMEOUT` in the source (seconds). -/
def LOCK_WARNING_TIMEOUT : Int := 30

/-- Result of the effective body of `release_db_lock` (lines 141-145):
the new table, and how many `database_write_lock.notify()` calls were made. -/
structure ReleaseOut where
  table : Option HolderState
  notifyCalls : Nat
deriving DecidableEq, Repr

/-- Lines 141-145 of the source: if the caller is the recorded holder,
decrement `busy_op[2]`; if the result is `<= 0`, pop the entry and call
`notify()` (which wakes at most one waiter).  Any other caller leaves the
table alone.  The `none` case is the value-level effect only; the exception
the real code raises there is modelled in `release_db_lock_run`. -/
def releaseStep (tid : Nat) : Option HolderState → ReleaseOut
  | none => ⟨none, 0⟩
  | some s =>
    if s.holder = tid then
      if s.count - 1 ≤ 0 then ⟨none, 1⟩
      else ⟨some ⟨s.holder, s.acquired_at, s.count - 1, s.warned⟩, 0⟩
    else ⟨some s, 0⟩

/-- The table after one effective release by `tid`. -/
def releaseOp (tid : Nat) (tb : Option HolderState) : Option HolderState :=
  (releaseStep tid tb).table

/-- `notify()` wakes at most `notifyCalls` of the `waiting` blocked threads. -/
def wokenWaiters (r : ReleaseOut) (waiting : Nat) : Nat :=
  min r.notifyCalls waiting

/-- Increment a per-thread net acquire/release counter. -/
def bump (f : Nat → Int) (tid : Nat) : Nat → Int :=
  fun u => if u = tid then f u + 1 else f u

/-- Decrement a per-thread net acquire/release counter. -/
def dropOne (f : Nat → Int) (tid : Nat) : Nat → Int :=
  fun u => if u = tid then f u - 1 else f u

/-- Reachable lock-table states, paired with a ghost map giving each thread's
net effective acquires minus releases.  Each constructor is one atomic table
mutation the source performs under `database_write_lock`:

* `claim`    : line 123 reached with the table free (normal acquisition);
* `reenter`  : lines 56-58, the holder re-enters, `thread_busy[None][2] += 1`;
* `warnSet`  : line 114, a waiter sets `busy_op[3] = True`;
* `takeover` : lines 105 and 123 after the `max_wait` deadline: the entry of a
  different holder is unconditionally overwritten (only when the Boolean
  parameter allows forced takeover);
* `release`  : the effective body of `release_db_lock` by the holder.

Release calls by a non-holder leave both the table and the effective net
unchanged (lines 141-145 do nothing), so they add no reachable states. -/
inductive Reach : Bool → Option HolderState → (Nat → Int) → Prop where
  | init (b : Bool) : Reach b none (fun _ => 0)
  | claim (b : Bool) (tid : Nat) (t : Int) (f : Nat → Int) :
      Reach b none f → Reach b (some ⟨tid, t, 1, false⟩) (bump f tid)
  | reenter (b : Bool) (tid : Nat) (t c : Int) (w : Bool) (f : Nat → Int) :
      Reach b (some ⟨tid, t, c, w⟩) f →
      Reach b (some ⟨tid, t, c + 1, w⟩) (bump f tid)
  | warnSet (b : Bool) (h : Nat) (t c : Int) (f : Nat → Int) :
      Reach b (some ⟨h, t, c, false⟩) f → Reach b (some ⟨h, t, c, true⟩) f
  | takeover (h : Nat) (t c : Int) (w : Bool) (f : Nat → Int)
      (tid : Nat) (t' : Int) :
      Reach true (some ⟨h, t, c, w⟩) f → h ≠ tid →
      Reach true (some ⟨tid, t', 1, false⟩) (bump f tid)
  | release (b : Bool) (s : HolderState) (f : Nat → Int) :
      Reach b (some s) f →
      Reach b (releaseOp s.holder (some s)) (dropOne f s.holder)

/-- `x` is recorded as holder of the key in table `tb`. -/
def isHolder (x : Nat) (tb : Option HolderState) : Prop :=
  ∃ s, tb = some s ∧ s.holder = x

/-- Accounting invariant tying the table to the ghost nets: a free table means
every net is zero; a held table records the holder's positive net. -/
def netInv : Option HolderState → (Nat → Int) → Prop
  | none, f => ∀ u, f u = 0
  | some s, f => f s.holder = s.count ∧ 1 ≤ s.count ∧
      ∀ u, u ≠ s.holder → f u = 0

theorem reach_count_pos (b : Bool) (tb : Option HolderState) (f : Nat → Int)
    (h : Reach b tb f) : ∀ s, tb = some s → 1 ≤ s.count := by
  induction h with
  | init => intro s hs; cases hs
  | claim b tid t f _ _ =>
    intro s hs
    cases hs
    norm_num
  | reenter b tid t c w f _ ih =>
    intro s hs
    cases hs
    have := ih ⟨tid, t, c, w⟩ rfl
    simp only at this ⊢
    omega
  | warnSet b hh t c f _ ih =>
    intro s hs
    cases hs
    have := ih ⟨hh, t, c, false⟩ rfl
    simpa using this
  | takeover h t c w f tid t' _ _ _ =>
    intro s hs
    cases hs
    norm_num
  | release b s f _ ih =>
    intro s' hs'
    have hc := ih s rfl
    simp only [releaseOp, releaseStep, if_pos rfl] at hs'
    by_cases hz : s.count - 1 ≤ 0
    · rw [if_pos hz] at hs'; cases hs'
    · rw [if_neg hz] at hs'
      cases hs'
      simp only
      omega

theorem reach_netInv (b : Bool) (tb : Option HolderState) (f : Nat → Int)
    (h : Reach b tb f) : b = false → netInv tb f := by
  induction h with
  | init => intro _ u; rfl
  | claim b tid t f _ ih =>
    intro hb
    have hz := ih hb
    simp only [netInv, bump] at hz ⊢
    refine ⟨by simp [hz tid], by norm_num, ?_⟩
    intro u hu
    simp [hu, hz u]
  | reenter b tid t c w f _ ih =>
    intro hb
    obtain ⟨h1, h2, h3⟩ := ih hb
    simp only [netInv, bump] at h1 h2 h3 ⊢
    refine ⟨by simp [h1], by omega, ?_⟩
    intro u hu
    simp [hu, h3 u hu]
  | warnSet b hh t c f _ ih =>
    intro hb
    obtain ⟨h1, h2, h3⟩ := ih hb
    exact ⟨h1, h2, h3⟩
  | takeover h t c w f tid t' _ _ _ =>
    intro hb
    cases hb
  | release b s f _ ih =>
    intro hb
    obtain ⟨h1, h2, h3⟩ := ih hb
    simp only [releaseOp, releaseStep, if_pos rfl]
    by_cases hz : s.count - 1 ≤ 0
    · rw [if_pos hz]
      show ∀ u, dropOne f s.holder u = 0
      intro u
      by_cases hu : u = s.holder
      · subst hu
        have hd : dropOne f s.holder s.holder = f s.holder - 1 := by
          simp [dropOne]
        rw [hd]
        omega
      · simp only [dropOne, if_neg hu]
        exact h3 u hu
    · rw [if_neg hz]
      refine ⟨?_, ?_, ?_⟩
      · show dropOne f s.holder s.holder = s.count - 1
        have hd : dropOne f s.holder s.holder = f s.holder - 1 := by
          simp [dropOne]
        rw [hd]
        omega
      · show 1 ≤ s.count - 1
        omega
      · intro u hu
        have hu' : u ≠ s.holder := hu
        show dropOne f s.holder u = 0
        simp only [dropOne, if_neg hu']
        exact h3 u hu'

/-- C1 (amended): in every reachable lock-table state, a present entry has
`reentrancy_count ≥ 1` and records a unique holder; and, provided no forced
takeover occurs in the sequence, the key is absent from the table if and only
if every thread's net effective acquires minus releases is zero. -/
theorem c1_amended (b : Bool) (tb : Option HolderState) (f : Nat → Int)
    (h : Reach b tb f) :
    (∀ s, tb = some s → 1 ≤ s.count) ∧
    (∀ x y, isHolder x tb → isHolder y tb → x = y) ∧
    (b = false → (tb = none ↔ ∀ u, f u = 0)) := by
  refine ⟨reach_count_pos b tb f h, ?_, ?_⟩
  · rintro x y ⟨s, hs, hx⟩ ⟨s', hs', hy⟩
    rw [hs] at hs'
    cases hs'
    rw [← hx, ← hy]
  · intro hb
    have hi := reach_netInv b tb f h hb
    constructor
    · intro hnone
      subst hnone
      exact hi
    · intro hall
      cases tb with
      | none => rfl
      | some s =>
        exfalso
        obtain ⟨h1, h2, _⟩ := hi
        have := hall s.holder
        omega

/-- Witness for `c1_amended`: the state after thread 1 claims the free key. -/
theorem c1_amended_witness :
    (∀ s, some (⟨1, 0, 1, false⟩ : HolderState) = some s → 1 ≤ s.count) ∧
    (∀ x y, isHolder x (some (⟨1, 0, 1, false⟩ : HolderState)) →
      isHolder y (some (⟨1, 0, 1, false⟩ : HolderState)) → x = y) ∧
    (false = false →
      ((some (⟨1, 0, 1, false⟩ : HolderState) = none) ↔
        ∀ u, bump (fun _ => 0) 1 u = 0)) :=
  c1_amended false (some ⟨1, 0, 1, false⟩) (bump (fun _ => 0) 1)
    (Reach.claim false 1 0 (fun _ => 0) (Reach.init false))

/-- The net-counter map after: thread 1 claims, thread 2 forcibly takes over,
thread 2 releases.  Thread 1's net is still 1. -/
def cexNet : Nat → Int :=
  dropOne (bump (bump (fun _ => 0) 1) 2) 2

/-- C1 (counterexample): with forced takeover the absent-iff-free half of the
claim fails — after thread 1 claims the key, thread 2 takes it over by force
and releases it, the key is absent from `thread_busy` although thread 1's net
acquires minus releases is 1, not 0. -/
theorem c1_counterexample : Reach true none cexNet ∧ cexNet 1 ≠ 0 := by
  constructor
  · have h1 : Reach true (some ⟨1, 0, 1, false⟩) (bump (fun _ => 0) 1) :=
      Reach.claim true 1 0 (fun _ => 0) (Reach.init true)
    have h2 : Reach true (some ⟨2, 5, 1, false⟩)
        (bump (bump (fun _ => 0) 1) 2) :=
      Reach.takeover 1 0 1 false (bump (fun _ => 0) 1) 2 5 h1 (by decide)
    have h3 := Reach.release true ⟨2, 5, 1, false⟩
      (bump (bump (fun _ => 0) 1) 2) h2
    simpa [releaseOp, releaseStep, cexNet] using h3
  · decide

/-! ### `release_db_lock` under asynchronous interruption

`release_db_lock` wraps its body in two `try/except RuntimeError` layers: the
outer one (lines 134, 149-151) catches a cancellation anywhere inside the
outer `try` and retries the whole call; the inner one (lines 140, 146-148)
restores `thread_busy[None]` from the snapshot `busy_op_backup` and retries.
An attempt is driven by an optional interruption point:

* `some 0` — the `RuntimeError` lands before the snapshot of line 138 is
  taken: no mutation yet, and the outer handler retries on the unchanged
  table;
* `some 1` — it lands inside the guarded mutation of lines 141-145 and the
  inner handler runs to completion: the table is restored to the snapshot
  (line 147) and the release retried;
* `some (n+2)` — it lands after the guarded mutation completed but still
  inside the outer `try` (while the inner `try` and the `with` block are
  being exited, the very window the comment at line 133 worries about):
  nothing restores the table, and the outer handler retries the
  already-completed release on the mutated table;
* `none` — the attempt runs to completion.

When the attempt reaches line 138 with no entry in `thread_busy`, it
evaluates `None[:]`, which raises a `TypeError` that no handler catches. -/

/-- Outcome of a `release_db_lock` call. -/
inductive RelOutcome where
  | completed (tb : Option HolderState)
  | typeErr
deriving DecidableEq, Repr

/-- `release_db_lock` by thread `tid`, given the interruption point (if any)
of each successive attempt.  Once the list is exhausted, the attempt runs
without interruption. -/
def release_db_lock_run (tid : Nat) :
    Option HolderState → List (Option Nat) → RelOutcome
  | tb, [] =>
    match tb with
    | none => RelOutcome.typeErr
    | some s => RelOutcome.completed (releaseOp tid (some s))
  | tb, int :: rest =>
    match int with
    | none =>
      match tb with
      | none => RelOutcome.typeErr
      | some s => RelOutcome.completed (releaseOp tid (some s))
    | some 0 => release_db_lock_run tid tb rest
    | some 1 =>
      match tb with
      | none => RelOutcome.typeErr
      | some s => release_db_lock_run tid (some s) rest
    | some (_ + 2) =>
      match tb with
      | none => RelOutcome.typeErr
      | some s => release_db_lock_run tid (releaseOp tid (some s)) rest

/-- C3 (counterexample): a cancellation landing after the guarded mutation
completed but still inside the outer `try` makes the handler at lines
149-151 retry an already-completed release.  Holder 1 with count 1: the
entry is popped, the retry then slices `None` at line 138 and an uncaught
`TypeError` reaches the caller.  Holder 1 with count 2: the retry applies a
second decrement, removing an entry that a single release leaves at count 1
— a decrement is applied twice. -/
theorem c3_counterexample :
    release_db_lock_run 1 (some ⟨1, 0, 1, false⟩) [some 2] =
      RelOutcome.typeErr ∧
    release_db_lock_run 1 (some ⟨1, 0, 2, false⟩) [some 2] =
      RelOutcome.completed none ∧
    releaseOp 1 (some ⟨1, 0, 2, false⟩) = some ⟨1, 0, 1, false⟩ := by
  refine ⟨?_, ?_, ?_⟩ <;> decide

/-- C3 (amended): as long as every cancellation lands before the snapshot of
line 138 (outer retry, no mutation yet) or inside the guarded mutation with
the inner rollback completing (restore to the snapshot and retry), the
release by the recorded holder converges after finitely many retries to
exactly the result of one uninterrupted release — one net decrement, no
error surfaced, no entry left with `count ≤ 0`.  A cancellation landing
after the mutation completed but before the outer `try` is exited escapes
this guarantee: the outer handler then retries a finished release, giving a
double decrement or an uncaught `TypeError` (see the counterexample). -/
theorem c3_release_interrupt_convergence (s : HolderState) (tid : Nat)
    (ints : List (Option Nat)) (h : s.holder = tid)
    (hw : ∀ i ∈ ints, i = none ∨ i = some 0 ∨ i = some 1) :
    release_db_lock_run tid (some s) ints =
      RelOutcome.completed (releaseOp tid (some s)) ∧
    (∀ s', releaseOp tid (some s) = some s' →
      s'.count = s.count - 1 ∧ 1 ≤ s'.count) ∧
    (s.count - 1 ≤ 0 → releaseOp tid (some s) = none) := by
  have hmain : ∀ (l : List (Option Nat)),
      (∀ i ∈ l, i = none ∨ i = some 0 ∨ i = some 1) →
      release_db_lock_run tid (some s) l =
        RelOutcome.completed (releaseOp tid (some s)) := by
    intro l
    induction l with
    | nil => intro _; rfl
    | cons i rest ih =>
      intro hl
      have hi := hl i (List.mem_cons_self i rest)
      have hrest : ∀ j ∈ rest, j = none ∨ j = some 0 ∨ j = some 1 :=
        fun j hj => hl j (List.mem_cons_of_mem i hj)
      rcases hi with rfl | rfl | rfl
      · rfl
      · exact ih hrest
      · exact ih hrest
  refine ⟨hmain ints hw, ?_, ?_⟩
  · intro s' hs'
    simp only [releaseOp, releaseStep] at hs'
    rw [if_pos h] at hs'
    by_cases hz : s.count - 1 ≤ 0
    · rw [if_pos hz] at hs'; cases hs'
    · rw [if_neg hz] at hs'
      cases hs'
      refine ⟨rfl, ?_⟩
      show 1 ≤ s.count - 1
      omega
  · intro hz
    simp only [releaseOp, releaseStep]
    rw [if_pos h, if_pos hz]

/-- Witness for `c3_release_interrupt_convergence`: thread 1 holds with
count 2 and is interrupted twice (once before the snapshot, once inside the
mutation with the rollback completing); the release still completes with the
count decremented to 1. -/
theorem c3_release_interrupt_convergence_witness :
    release_db_lock_run 1 (some ⟨1, 0, 2, false⟩) [some 1, some 0, none] =
      RelOutcome.completed (releaseOp 1 (some ⟨1, 0, 2, false⟩)) ∧
    (∀ s', releaseOp 1 (some (⟨1, 0, 2, false⟩ : HolderState)) = some s' →
      s'.count = (⟨1, 0, 2, false⟩ : HolderState).count - 1 ∧ 1 ≤ s'.count) ∧
    ((⟨1, 0, 2, false⟩ : HolderState).count - 1 ≤ 0 →
      releaseOp 1 (some (⟨1, 0, 2, false⟩ : HolderState)) = none) :=
  c3_release_interrupt_convergence ⟨1, 0, 2, false⟩ 1 [some 1, some 0, none]
    rfl (by decide)

/-- C6 (code bug): a release by a thread that is not the recorded holder of a
held key is indeed a silent no-op, but when no thread holds the key at all,
line 138 (`busy_op_backup = busy_op[:]`) slices `None` and raises an uncaught
`TypeError` — an error does reach the caller. -/
theorem c6_release_no_holder_raises :
    release_db_lock_run 2 none [] = RelOutcome.typeErr ∧
    (releaseStep 2 (some ⟨1, 0, 1, false⟩)).table = some ⟨1, 0, 1, false⟩ ∧
    (releaseStep 2 (some ⟨1, 0, 1, false⟩)).notifyCalls = 0 := by
  refine ⟨rfl, rfl, rfl⟩

/-- C7 (counterexample): when the holder's count drops to zero the entry is
removed, but the code calls `notify()` (line 145), which wakes at most one
thread — with two threads waiting, only one is woken, not all. -/
theorem c7_counterexample :
    (releaseStep 1 (some ⟨1, 0, 1, false⟩)).table = none ∧
    wokenWaiters (releaseStep 1 (some ⟨1, 0, 1, false⟩)) 2 = 1 ∧
    (1 : Nat) ≠ 2 := by
  refine ⟨rfl, rfl, by decide⟩

/-- C7 (amended): whenever `release_db_lock` decrements the holder's count to
zero (`count - 1 ≤ 0`), it removes the entry and makes exactly one `notify()`
call, waking at most one waiting thread; the remaining waiters are woken by
their bounded wait timeouts, not by this release. -/
theorem c7_amended (s : HolderState) (tid : Nat) (h : s.holder = tid)
    (hz : s.count - 1 ≤ 0) :
    (releaseStep tid (some s)).table = none ∧
    (releaseStep tid (some s)).notifyCalls = 1 ∧
    ∀ w, wokenWaiters (releaseStep tid (some s)) w = min 1 w := by
  simp only [releaseStep]
  rw [if_pos h, if_pos hz]
  exact ⟨rfl, rfl, fun w => rfl⟩

/-- Witness for `c7_amended` at a concrete holder with count 1. -/
theorem c7_amended_witness :
    (releaseStep 1 (some ⟨1, 7, 1, true⟩)).table = none ∧
    (releaseStep 1 (some ⟨1, 7, 1, true⟩)).notifyCalls = 1 ∧
    ∀ w, wokenWaiters (releaseStep 1 (some ⟨1, 7, 1, true⟩)) w = min 1 w :=
  c7_amended ⟨1, 7, 1, true⟩ 1 rfl (by decide)

/-! ### The `get_db_lock` acquisition model

The wait loop (lines 64-121) is driven by a schedule of wake observations,
pairs of the clock value and the contents of `thread_busy[None]` seen each
time `database_write_lock.wait` returns.  `start_time` (line 61) is passed through
unchanged — the source never reassigns it — while `check_start_time` is reset
at lines 117 and 120.  Every external-collaborator call that the code
performs is recorded as an event paired with whether `database_write_lock`
(the table mutex) was held at that moment. -/

/-- External-collaborator calls made by `get_db_lock`. -/
inductive Ev where
  | roleCapture
  | killCapture
  | interrupt
  | render
  | warnCapture
  | notifyAdmin
deriving DecidableEq, Repr

/-- Success flags for the external collaborators:
`slaveMode` is the answer of `ServerMode().mode == SLAVE`; the `...Ok` flags
say whether the corresponding collaborator call succeeds or raises. -/
structure Collab where
  slaveMode : Bool
  roleQueryOk : Bool
  roleCaptureOk : Bool
  killCaptureOk : Bool
  interruptOk : Bool
  renderOk : Bool
  warnCaptureOk : Bool
  adminAvailable : Bool
  notifyOk : Bool
deriving DecidableEq, Repr

/-- How a `get_db_lock` call ends. -/
inductive Outcome where
  | ok
  | reentrantOk
  | raised (msg : String)
  | outOfSchedule
deriving DecidableEq, Repr

/-- Whether an uncaught exception escaped to the caller. -/
def Outcome.isRaised : Outcome → Bool
  | Outcome.raised _ => true
  | _ => false

/-- Observable result of a `get_db_lock` call. -/
structure RunResult where
  table : Option HolderState
  events : List (Ev × Bool)
  warnCount : Nat
  tookOver : Bool
  takeTime : Option Int
  victim : Option (Nat × Int)
  outcome : Outcome
deriving DecidableEq, Repr

/-- Result of the wait loop proper. -/
inductive LoopOut where
  | finished (installT : Int) (tookOver : Bool) (takeTime : Option Int)
      (victim : Option (Nat × Int)) (emailReady : Bool)
      (events : List (Ev × Bool)) (warnCount : Nat)
  | starved (events : List (Ev × Bool)) (warnCount : Nat)
deriving DecidableEq, Repr

/-- The takeover diagnostics block, lines 72-104, executed with the table
mutex held.  If the stack capture (lines 75-76) raises, the handler at line
103 logs and nothing further runs; otherwise the async raise is attempted
(its failure is caught inline at lines 83-91 and only changes the logged
text, hence `interruptOk` has no observable effect) and the creole rendering
is attempted (line 96); `email_msg` ends up set exactly when both capture and
rendering succeeded.  Returns the recorded events and whether the e-mail
message is ready. -/
def takeoverDiag (c : Collab) : List (Ev × Bool) × Bool :=
  if c.killCaptureOk then
    ([(Ev.killCapture, true), (Ev.interrupt, true), (Ev.render, true)],
      c.renderOk)
  else
    ([(Ev.killCapture, true)], false)

/-- The wait loop of lines 64-121.  Arguments after the configuration: the
observed holder pair `busy_op[:2]` (`bH`, `bA`), the local warned flag
`busy_op[3]` (`bW`), `check_start_time` (`cT`), the events so far, the number
of warning diagnostics emitted so far, and the schedule of remaining wakes.
`st` is `start_time`, never changed.  On a pair change (line 118-120) only
`check_start_time` is reset; when the pair is unchanged past `max_wait` the
takeover block runs and `busy_op` is set to `None` (line 105), ending the
loop; afterwards line 123 installs `[current_id, now, 1, False]`, which is
the `finished` install time. -/
def waitLoop (c : Collab) (mw wt st : Int) :
    Nat → Int → Bool → Int → List (Ev × Bool) → Nat →
      List (Int × Option HolderState) → LoopOut
  | _, _, _, _, evs, wc, [] => LoopOut.starved evs wc
  | _, _, _, _, evs, wc, (t, none) :: _ =>
    LoopOut.finished t false none none false evs wc
  | bH, bA, bW, cT, evs, wc, (t, some s) :: rest =>
    if s.holder = bH ∧ s.acquired_at = bA then
      if t - st > mw then
        LoopOut.finished t true (some t) (some (bH, bA))
          (takeoverDiag c).2 (evs ++ (takeoverDiag c).1) wc
      else if t - cT > wt then
        if bW then
          waitLoop c mw wt st bH bA bW t evs wc rest
        else if c.warnCaptureOk then
          waitLoop c mw wt st bH bA true t
            (evs ++ [(Ev.warnCapture, true)]) (wc + 1) rest
        else
          waitLoop c mw wt st bH bA false t
            (evs ++ [(Ev.warnCapture, true)]) wc rest
      else
        waitLoop c mw wt st bH bA bW cT evs wc rest
    else
      waitLoop c mw wt st s.holder s.acquired_at s.warned t evs wc rest

/-- Lines 123-130 after the wait loop ends: install the new `HolderState`
`[current_id, now, 1, False]`, then, outside the mutex, send the e-mail if
`email_msg` and `dump_file_contents` were prepared.  The `email_admin` call
(line 128) is not inside any `try`, so its failure propagates. -/
def afterLoop (c : Collab) (tid : Nat) (origTb : Option HolderState) :
    LoopOut → RunResult
  | LoopOut.starved evs wc =>
    ⟨origTb, evs, wc, false, none, none, Outcome.outOfSchedule⟩
  | LoopOut.finished instT took tt victim emailReady evs wc =>
    if emailReady then
      if c.adminAvailable then
        if c.notifyOk then
          ⟨some ⟨tid, instT, 1, false⟩, evs ++ [(Ev.notifyAdmin, false)], wc,
            took, tt, victim, Outcome.ok⟩
        else
          ⟨some ⟨tid, instT, 1, false⟩, evs ++ [(Ev.notifyAdmin, false)], wc,
            took, tt, victim, Outcome.raised "email_admin failed"⟩
      else
        ⟨some ⟨tid, instT, 1, false⟩, evs, wc, took, tt, victim, Outcome.ok⟩
    else
      ⟨some ⟨tid, instT, 1, false⟩, evs, wc, took, tt, victim, Outcome.ok⟩

/-- `get_db_lock` by thread `tid` with timeouts `mw`/`wt`, entered at clock
`t0` with table `tb`, the wakes of the wait loop given by `sched`.  Lines
46-51 (the server-mode check and its traceback capture) run before the mutex
is taken and are wrapped in no `try`, so their failures propagate.  Under the
mutex: the reentrant fast path (lines 56-59), or the free-table claim, or the
wait loop. -/
def runBody (c : Collab) (tid : Nat) (mw wt t0 : Int) (preEvs : List (Ev × Bool))
    (sched : List (Int × Option HolderState)) :
    Option HolderState → RunResult
  | some s =>
    if s.holder = tid then
      ⟨some ⟨s.holder, s.acquired_at, s.count + 1, s.warned⟩, preEvs, 0,
        false, none, none, Outcome.reentrantOk⟩
    else
      afterLoop c tid (some s)
        (waitLoop c mw wt t0 s.holder s.acquired_at s.warned t0 preEvs 0
          sched)
  | none =>
    ⟨some ⟨tid, t0, 1, false⟩, preEvs, 0, false, none, none, Outcome.ok⟩

def get_db_lock_run (c : Collab) (tid : Nat) (mw wt t0 : Int)
    (tb : Option HolderState) (sched : List (Int × Option HolderState)) :
    RunResult :=
  if c.roleQueryOk = false then
    ⟨tb, [], 0, false, none, none, Outcome.raised "mode query failed"⟩
  else if c.slaveMode = true ∧ c.roleCaptureOk = false then
    ⟨tb, if c.slaveMode then [(Ev.roleCapture, false)] else [], 0, false,
      none, none, Outcome.raised "find_thread_frame failed"⟩
  else
    runBody c tid mw wt t0
      (if c.slaveMode then [(Ev.roleCapture, false)] else []) sched tb

/-- All collaborators healthy, primary mode. -/
def allOk : Collab := ⟨false, true, true, true, true, true, true, true, true⟩

/-- `ServerMode().mode` itself raises. -/
def roleFailCollab : Collab :=
  ⟨false, false, true, true, true, true, true, true, true⟩

/-- Only the `email_admin` delivery raises. -/
def notifyFailCollab : Collab :=
  ⟨false, true, true, true, true, true, true, true, false⟩

/-- Wake schedule of a waiter (thread 2) that starts waiting at clock 0 on
holder `(1, 0)`: ordinary wakes at 29 and 58 (a warning fires at 58), the
holder changes to `(3, 110)` observed at 115, and at 125 the unchanged-pair
check passes while `125 - start_time > 120`, although the new holder has
been observed for only 10 seconds. -/
def cexSched : List (Int × Option HolderState) :=
  [(29, some ⟨1, 0, 1, false⟩), (58, some ⟨1, 0, 1, false⟩),
   (115, some ⟨3, 110, 1, false⟩), (125, some ⟨3, 110, 1, false⟩)]

/-- C4: single-thread lifecycle from a free table.  The first `get_db_lock`
installs thread 1 with count 1 and returns at once (empty wake schedule, no
waiting); the second call takes the reentrant fast path, incrementing the
count to 2 without blocking; the first release decrements to 1 keeping thread
1 as holder with no notification; the second removes the entry and performs
the `notify()` call. -/
theorem c4_single_thread_scenario :
    (get_db_lock_run allOk 1 120 30 0 none []).table =
      some ⟨1, 0, 1, false⟩ ∧
    (get_db_lock_run allOk 1 120 30 0 none []).outcome = Outcome.ok ∧
    (get_db_lock_run allOk 1 120 30 5 (some ⟨1, 0, 1, false⟩) []).table =
      some ⟨1, 0, 2, false⟩ ∧
    (get_db_lock_run allOk 1 120 30 5 (some ⟨1, 0, 1, false⟩) []).outcome =
      Outcome.reentrantOk ∧
    releaseStep 1 (some ⟨1, 0, 2, false⟩) = ⟨some ⟨1, 0, 1, false⟩, 0⟩ ∧
    releaseStep 1 (some ⟨1, 0, 1, false⟩) = ⟨none, 1⟩ := by
  refine ⟨?_, ?_, ?_, ?_, ?_, ?_⟩ <;> decide

/-- C2 (counterexample): `start_time` is never reset when the observed
`(holder, acquired_at)` pair changes — only `check_start_time` is (line 120).
With `max_wait = 120`: waiter 2 starts at clock 0 on holder `(1, 0)`; at 115
it observes the new holder `(3, 110)`; at 125 the pair is unchanged since 115
and `125 - 0 > 120` triggers forced takeover of `(3, 110)`, although that
holder has been observed for only `125 - 115 = 10 ≤ 120` seconds. -/
theorem c2_counterexample :
    (get_db_lock_run allOk 2 120 30 0 (some ⟨1, 0, 1, false⟩)
      cexSched).tookOver = true ∧
    (get_db_lock_run allOk 2 120 30 0 (some ⟨1, 0, 1, false⟩)
      cexSched).takeTime = some 125 ∧
    (get_db_lock_run allOk 2 120 30 0 (some ⟨1, 0, 1, false⟩)
      cexSched).victim = some (3, 110) ∧
    (125 : Int) - 115 ≤ 120 := by
  refine ⟨?_, ?_, ?_, ?_⟩ <;> decide

/-- C9 (counterexample): in a forced takeover, the blocking thread's stack
capture (lines 75-76), the cancellation delivery (line 81) and the document
rendering (line 96) are all executed inside the `with database_write_lock`
block, i.e. while the table mutex is held. -/
theorem c9_counterexample :
    (Ev.killCapture, true) ∈ (get_db_lock_run allOk 2 120 30 0
      (some ⟨1, 0, 1, false⟩) cexSched).events ∧
    (Ev.interrupt, true) ∈ (get_db_lock_run allOk 2 120 30 0
      (some ⟨1, 0, 1, false⟩) cexSched).events ∧
    (Ev.render, true) ∈ (get_db_lock_run allOk 2 120 30 0
      (some ⟨1, 0, 1, false⟩) cexSched).events := by
  refine ⟨?_, ?_, ?_⟩ <;> decide

/-- C5 (counterexample): two collaborator failures do propagate to the
caller.  A failure of the deployment-role query (`ServerMode().mode`, line
47, wrapped in no `try`) escapes `get_db_lock` before anything else runs; and
a failure of the admin notification (`email_admin.email_admin`, line 128,
also unguarded) escapes after the forced takeover — the table been already
overwritten with the requesting thread. -/
theorem c5_counterexample :
    (get_db_lock_run roleFailCollab 2 120 30 0 (some ⟨1, 0, 1, false⟩)
      []).outcome.isRaised = true ∧
    (get_db_lock_run notifyFailCollab 2 120 30 0 (some ⟨1, 0, 1, false⟩)
      cexSched).outcome.isRaised = true ∧
    (get_db_lock_run notifyFailCollab 2 120 30 0 (some ⟨1, 0, 1, false⟩)
      cexSched).table = some ⟨2, 125, 1, false⟩ := by
  refine ⟨?_, ?_, ?_⟩ <;> decide

/-! ### Structural lemmas about the wait loop and its wrap-up -/

/-- Whether a wake observation still shows the holder pair `(bH, bA)`
(the comparison `busy_op[:2] == now_busy_op[:2]` of line 70). -/
def obsMatches (bH : Nat) (bA : Int) (o : Int × Option HolderState) : Bool :=
  match o.2 with
  | none => false
  | some s => s.holder == bH && s.acquired_at == bA

/-- Number of warning diagnostics emitted by a loop run. -/
def loopWc : LoopOut → Nat
  | LoopOut.finished _ _ _ _ _ _ wc => wc
  | LoopOut.starved _ wc => wc

/-- Events recorded by a loop run. -/
def loopEvs : LoopOut → List (Ev × Bool)
  | LoopOut.finished _ _ _ _ _ evs _ => evs
  | LoopOut.starved evs _ => evs

/-- The lock-state-relevant part of a loop result: install time, whether a
takeover happened, its time and victim — everything except the diagnostic
events, warn count and e-mail readiness. -/
def loopCore : LoopOut → Option (Int × Bool × Option Int × Option (Nat × Int))
  | LoopOut.finished iT tk tt v _ _ _ => some (iT, tk, tt, v)
  | LoopOut.starved _ _ => none

/-- Whether the table mutex is held while each collaborator call is made:
the role-guard capture runs before the `with database_write_lock` block and
the admin e-mail after it; the takeover diagnostics and the warning capture
run inside it. -/
def evHeld : Ev → Bool
  | Ev.roleCapture => false
  | Ev.notifyAdmin => false
  | Ev.killCapture => true
  | Ev.interrupt => true
  | Ev.render => true
  | Ev.warnCapture => true

/-- The same collaborator configuration with every failure that the source
catches internally (takeover diagnostics, warning capture) switched back to
success. -/
def diagNormalize (c : Collab) : Collab :=
  ⟨c.slaveMode, c.roleQueryOk, c.roleCaptureOk, true, true, true, true,
    c.adminAvailable, c.notifyOk⟩

theorem afterLoop_table (c : Collab) (tid : Nat) (tb : Option HolderState)
    (iT : Int) (tk : Bool) (tt : Option Int) (v : Option (Nat × Int))
    (er : Bool) (evs : List (Ev × Bool)) (wc : Nat) :
    (afterLoop c tid tb (LoopOut.finished iT tk tt v er evs wc)).table =
      some ⟨tid, iT, 1, false⟩ := by
  simp only [afterLoop]
  split_ifs <;> rfl

theorem afterLoop_tookOver (c : Collab) (tid : Nat) (tb : Option HolderState)
    (iT : Int) (tk : Bool) (tt : Option Int) (v : Option (Nat × Int))
    (er : Bool) (evs : List (Ev × Bool)) (wc : Nat) :
    (afterLoop c tid tb (LoopOut.finished iT tk tt v er evs wc)).tookOver =
      tk := by
  simp only [afterLoop]
  split_ifs <;> rfl

theorem afterLoop_takeTime (c : Collab) (tid : Nat) (tb : Option HolderState)
    (iT : Int) (tk : Bool) (tt : Option Int) (v : Option (Nat × Int))
    (er : Bool) (evs : List (Ev × Bool)) (wc : Nat) :
    (afterLoop c tid tb (LoopOut.finished iT tk tt v er evs wc)).takeTime =
      tt := by
  simp only [afterLoop]
  split_ifs <;> rfl

theorem afterLoop_warnCount (c : Collab) (tid : Nat) (tb : Option HolderState)
    (lo : LoopOut) : (afterLoop c tid tb lo).warnCount = loopWc lo := by
  cases lo with
  | starved evs wc => rfl
  | finished iT tk tt v er evs wc =>
    simp only [afterLoop, loopWc]
    split_ifs <;> rfl

theorem afterLoop_not_raised (c : Collab) (tid : Nat)
    (tb : Option HolderState) (lo : LoopOut) (hn : c.notifyOk = true) :
    (afterLoop c tid tb lo).outcome.isRaised = false := by
  cases lo with
  | starved evs wc => rfl
  | finished iT tk tt v er evs wc =>
    simp only [afterLoop, hn]
    split_ifs <;> rfl

theorem afterLoop_events (c : Collab) (tid : Nat) (tb : Option HolderState)
    (lo : LoopOut) :
    (afterLoop c tid tb lo).events = loopEvs lo ∨
    (afterLoop c tid tb lo).events = loopEvs lo ++ [(Ev.notifyAdmin, false)] := by
  cases lo with
  | starved evs wc => exact Or.inl rfl
  | finished iT tk tt v er evs wc =>
    simp only [afterLoop, loopEvs]
    split_ifs <;> first | exact Or.inl rfl | exact Or.inr rfl

/-- If the wait loop reports a takeover time `t`, then `t - start_time`
exceeds `max_wait`: `start_time` is threaded through the loop unchanged, so
the deadline is always measured from when the waiter entered the loop. -/
theorem waitLoop_takeTime_gt (c : Collab) (mw wt st : Int) :
    ∀ (sched : List (Int × Option HolderState)) (bH : Nat) (bA : Int)
      (bW : Bool) (cT : Int) (evs : List (Ev × Bool)) (wc : Nat) (iT : Int)
      (tk : Bool) (t : Int) (v : Option (Nat × Int)) (er : Bool)
      (evs' : List (Ev × Bool)) (wc' : Nat),
      waitLoop c mw wt st bH bA bW cT evs wc sched =
        LoopOut.finished iT tk (some t) v er evs' wc' →
      t - st > mw := by
  intro sched
  induction sched with
  | nil =>
    intro bH bA bW cT evs wc iT tk t v er evs' wc' h
    simp [waitLoop] at h
  | cons obs rest ih =>
    intro bH bA bW cT evs wc iT tk t v er evs' wc' h
    obtain ⟨t0, tbl⟩ := obs
    cases tbl with
    | none => simp [waitLoop] at h
    | some s =>
      simp only [waitLoop] at h
      split_ifs at h with hp h1 h2 h3 h4
      · obtain ⟨-, -, htt, -⟩ := LoopOut.finished.inj h
        cases htt
        exact h1
      · exact ih bH bA bW t0 evs wc iT tk t v er evs' wc' h
      · exact ih bH bA true t0 (evs ++ [(Ev.warnCapture, true)]) (wc + 1)
          iT tk t v er evs' wc' h
      · exact ih bH bA false t0 (evs ++ [(Ev.warnCapture, true)]) wc
          iT tk t v er evs' wc' h
      · exact ih bH bA bW cT evs wc iT tk t v er evs' wc' h
      · exact ih s.holder s.acquired_at s.warned t0 evs wc iT tk t v er
          evs' wc' h

theorem runBody_takeTime_gt (c : Collab) (tid : Nat) (mw wt t0 : Int)
    (preEvs : List (Ev × Bool)) (sched : List (Int × Option HolderState))
    (tb : Option HolderState) (t : Int)
    (h : (runBody c tid mw wt t0 preEvs sched tb).takeTime = some t) :
    t - t0 > mw := by
  cases tb with
  | none => simp [runBody] at h
  | some s =>
    simp only [runBody] at h
    split_ifs at h with h3
    revert h
    cases hlo : waitLoop c mw wt t0 s.holder s.acquired_at s.warned t0
        preEvs 0 sched with
    | starved evs wc => intro h; simp [afterLoop] at h
    | finished iT tk tt v er evs wc =>
      intro h
      rw [afterLoop_takeTime] at h
      subst h
      exact waitLoop_takeTime_gt c mw wt t0 sched s.holder s.acquired_at
        s.warned t0 preEvs 0 iT tk t v er evs wc hlo

/-- C2 (amended): on a holder-pair change only the warning anchor
`check_start_time` is reset; `start_time` is not, so a forced takeover is
triggered exactly when the waiter's total elapsed time since entering the
wait loop exceeds `max_wait` — even if the currently observed holder has
held the key, under the waiter's observation, for `max_wait` or less. -/
theorem c2_amended (c : Collab) (tid : Nat) (mw wt t0 : Int)
    (tb : Option HolderState) (sched : List (Int × Option HolderState))
    (t : Int)
    (h : (get_db_lock_run c tid mw wt t0 tb sched).takeTime = some t) :
    t - t0 > mw := by
  unfold get_db_lock_run at h
  split_ifs at h
  all_goals exact runBody_takeTime_gt c tid mw wt t0 _ sched tb t h

/-- Witness for `c2_amended`: the concrete takeover of `cexSched` happens at
clock 125 with `125 - 0 > 120`. -/
theorem c2_amended_witness :
    (get_db_lock_run allOk 2 120 30 0 (some ⟨1, 0, 1, false⟩)
      cexSched).takeTime = some 125 ∧ (125 : Int) - 0 > 120 :=
  ⟨by decide,
    c2_amended allOk 2 120 30 0 (some ⟨1, 0, 1, false⟩) cexSched 125
      (by decide)⟩

theorem runBody_install (c : Collab) (tid : Nat) (mw wt t0 : Int)
    (preEvs : List (Ev × Bool)) (sched : List (Int × Option HolderState))
    (tb : Option HolderState)
    (h : (runBody c tid mw wt t0 preEvs sched tb).outcome = Outcome.ok) :
    ∃ t, (runBody c tid mw wt t0 preEvs sched tb).table =
      some ⟨tid, t, 1, false⟩ := by
  cases tb with
  | none => exact ⟨t0, rfl⟩
  | some s =>
    simp only [runBody] at h ⊢
    by_cases h3 : s.holder = tid
    · rw [if_pos h3] at h
      simp at h
    · rw [if_neg h3] at h ⊢
      revert h
      cases hlo : waitLoop c mw wt t0 s.holder s.acquired_at s.warned t0
          preEvs 0 sched with
      | starved evs wc => intro h; simp [afterLoop] at h
      | finished iT tk tt v er evs wc =>
        intro _
        exact ⟨iT, afterLoop_table c tid (some s) iT tk tt v er evs wc⟩

/-- C10: every `HolderState` newly installed by `get_db_lock` — claiming a
free key, claiming a key observed released during the wait, or forced
takeover — is `[current_id, now, 1, False]` (line 123): the requesting
thread, reentrancy count 1, and the `warned` flag initialised to `False`. -/
theorem c10_new_holder_not_warned (c : Collab) (tid : Nat) (mw wt t0 : Int)
    (tb : Option HolderState) (sched : List (Int × Option HolderState))
    (h : (get_db_lock_run c tid mw wt t0 tb sched).outcome = Outcome.ok) :
    ∃ t, (get_db_lock_run c tid mw wt t0 tb sched).table =
      some ⟨tid, t, 1, false⟩ := by
  revert h
  unfold get_db_lock_run
  split_ifs
  all_goals intro h
  all_goals
    first
      | exact h.elim
      | exact absurd h (by simp)
      | exact runBody_install c tid mw wt t0 _ sched tb h

/-- Witness for `c10_new_holder_not_warned`: thread 1 claims the free key. -/
theorem c10_new_holder_not_warned_witness :
    (get_db_lock_run allOk 1 120 30 0 none []).outcome = Outcome.ok ∧
    ∃ t, (get_db_lock_run allOk 1 120 30 0 none []).table =
      some ⟨1, t, 1, false⟩ :=
  ⟨by decide, c10_new_holder_not_warned allOk 1 120 30 0 none [] (by decide)⟩

/-- Per-episode bound on warning emissions: while every wake still shows the
pair `(bH, bA)`, at most one warning is emitted beyond those already counted,
and none at all once the episode's warned flag is set. -/
theorem waitLoop_warn_bound (c : Collab) (mw wt st : Int) (bH : Nat)
    (bA : Int) :
    ∀ (sched : List (Int × Option HolderState)) (bW : Bool) (cT : Int)
      (evs : List (Ev × Bool)) (wc : Nat),
      (∀ o ∈ sched, obsMatches bH bA o = true) →
      loopWc (waitLoop c mw wt st bH bA bW cT evs wc sched) ≤
        wc + (if bW then 0 else 1) := by
  intro sched
  induction sched with
  | nil =>
    intro bW cT evs wc _
    cases bW <;> simp [waitLoop, loopWc]
  | cons obs rest ih =>
    intro bW cT evs wc hm
    have hobs := hm obs (List.mem_cons_self obs rest)
    have hrest : ∀ o ∈ rest, obsMatches bH bA o = true :=
      fun o ho => hm o (List.mem_cons_of_mem obs ho)
    obtain ⟨t0, tbl⟩ := obs
    cases tbl with
    | none => simp [obsMatches] at hobs
    | some s =>
      simp [obsMatches] at hobs
      obtain ⟨hh, ha⟩ := hobs
      simp only [waitLoop]
      rw [if_pos (And.intro hh ha)]
      by_cases h1 : t0 - st > mw
      · rw [if_pos h1]
        cases bW <;> simp [loopWc]
      · rw [if_neg h1]
        by_cases h2 : t0 - cT > wt
        · rw [if_pos h2]
          cases bW with
          | false =>
            rw [if_neg (by simp)]
            by_cases h4 : c.warnCaptureOk
            · rw [if_pos h4]
              have hb := ih true t0 (evs ++ [(Ev.warnCapture, true)])
                (wc + 1) hrest
              simp at hb ⊢
              omega
            · rw [if_neg h4]
              have hb := ih false t0 (evs ++ [(Ev.warnCapture, true)]) wc
                hrest
              simp at hb ⊢
              omega
          | true =>
            rw [if_pos rfl]
            have hb := ih true t0 evs wc hrest
            simp at hb ⊢
            omega
        · rw [if_neg h2]
          exact ih bW cT evs wc hrest

theorem runBody_warnCount (c : Collab) (tid : Nat) (mw wt t0 : Int)
    (preEvs : List (Ev × Bool)) (sched : List (Int × Option HolderState))
    (s0 : HolderState)
    (hm : ∀ o ∈ sched, obsMatches s0.holder s0.acquired_at o = true) :
    (runBody c tid mw wt t0 preEvs sched (some s0)).warnCount ≤ 1 := by
  simp only [runBody]
  by_cases h3 : s0.holder = tid
  · rw [if_pos h3]
    simp
  · rw [if_neg h3]
    rw [afterLoop_warnCount]
    have hb := waitLoop_warn_bound c mw wt t0 s0.holder s0.acquired_at sched
      s0.warned t0 preEvs 0 hm
    have h2 : (if s0.warned then 0 else 1) ≤ 1 := by
      cases s0.warned <;> simp
    omega

/-- C8: as long as every wake still observes the same holder episode (the
pair `busy_op[:2]`), the impending-timeout warning is emitted at most once
during the whole `get_db_lock` call, however far past `warn_after` the wait
continues: the warned flag `busy_op[3]` is checked before emitting (line 107)
and set when the warning is emitted (line 114). -/
theorem c8_warning_at_most_once (c : Collab) (tid : Nat) (mw wt t0 : Int)
    (s0 : HolderState) (sched : List (Int × Option HolderState))
    (hm : ∀ o ∈ sched, obsMatches s0.holder s0.acquired_at o = true) :
    (get_db_lock_run c tid mw wt t0 (some s0) sched).warnCount ≤ 1 := by
  unfold get_db_lock_run
  split_ifs <;>
    first
      | (simp; done)
      | exact runBody_warnCount c tid mw wt t0 _ sched s0 hm

/-- Witness for `c8_warning_at_most_once`: three warn-eligible wakes on one
unchanged episode emit one warning in total. -/
theorem c8_warning_at_most_once_witness :
    (get_db_lock_run allOk 2 120 30 0 (some ⟨1, 0, 1, false⟩)
      [(31, some ⟨1, 0, 1, false⟩), (62, some ⟨1, 0, 1, false⟩),
       (93, some ⟨1, 0, 1, false⟩)]).warnCount ≤ 1 :=
  c8_warning_at_most_once allOk 2 120 30 0 ⟨1, 0, 1, false⟩
    [(31, some ⟨1, 0, 1, false⟩), (62, some ⟨1, 0, 1, false⟩),
     (93, some ⟨1, 0, 1, false⟩)] (by decide)

/-- Every event the wait loop records carries the mutex-held flag dictated by
its kind: takeover diagnostics and warning captures happen under the mutex. -/
theorem waitLoop_events_held (c : Collab) (mw wt st : Int) :
    ∀ (sched : List (Int × Option HolderState)) (bH : Nat) (bA : Int)
      (bW : Bool) (cT : Int) (evs : List (Ev × Bool)) (wc : Nat),
      (∀ p ∈ evs, p.2 = evHeld p.1) →
      ∀ p ∈ loopEvs (waitLoop c mw wt st bH bA bW cT evs wc sched),
        p.2 = evHeld p.1 := by
  intro sched
  induction sched with
  | nil =>
    intro bH bA bW cT evs wc hin
    simpa [waitLoop, loopEvs] using hin
  | cons obs rest ih =>
    intro bH bA bW cT evs wc hin
    obtain ⟨t0, tbl⟩ := obs
    cases tbl with
    | none => simpa [waitLoop, loopEvs] using hin
    | some s =>
      simp only [waitLoop]
      split_ifs with hp h1 h2 h3 h4
      · intro p hp'
        simp only [loopEvs] at hp'
        rcases List.mem_append.mp hp' with hq | hq
        · exact hin p hq
        · by_cases hk : c.killCaptureOk
          · simp [takeoverDiag, hk] at hq
            rcases hq with rfl | rfl | rfl <;> rfl
          · simp [takeoverDiag, hk] at hq
            subst hq
            rfl
      · exact ih bH bA bW t0 evs wc hin
      · refine ih bH bA true t0 (evs ++ [(Ev.warnCapture, true)]) (wc + 1) ?_
        intro q hq
        rcases List.mem_append.mp hq with hq' | hq'
        · exact hin q hq'
        · simp at hq'
          subst hq'
          rfl
      · refine ih bH bA false t0 (evs ++ [(Ev.warnCapture, true)]) wc ?_
        intro q hq
        rcases List.mem_append.mp hq with hq' | hq'
        · exact hin q hq'
        · simp at hq'
          subst hq'
          rfl
      · exact ih bH bA bW cT evs wc hin
      · exact ih s.holder s.acquired_at s.warned t0 evs wc hin

theorem runBody_events_held (c : Collab) (tid : Nat) (mw wt t0 : Int)
    (preEvs : List (Ev × Bool)) (sched : List (Int × Option HolderState))
    (tb : Option HolderState)
    (hpre : ∀ p ∈ preEvs, p.2 = evHeld p.1) :
    ∀ p ∈ (runBody c tid mw wt t0 preEvs sched tb).events,
      p.2 = evHeld p.1 := by
  cases tb with
  | none => simpa [runBody] using hpre
  | some s =>
    simp only [runBody]
    split_ifs with h3
    · simpa using hpre
    · intro p hp
      rcases afterLoop_events c tid (some s)
          (waitLoop c mw wt t0 s.holder s.acquired_at s.warned t0 preEvs 0
            sched) with he | he
      · rw [he] at hp
        exact waitLoop_events_held c mw wt t0 sched s.holder s.acquired_at
          s.warned t0 preEvs 0 hpre p hp
      · rw [he] at hp
        rcases List.mem_append.mp hp with hq | hq
        · exact waitLoop_events_held c mw wt t0 sched s.holder s.acquired_at
            s.warned t0 preEvs 0 hpre p hq
        · simp at hq
          subst hq
          rfl

/-- C9 (amended): the mutex-held status of each collaborator call is fixed by
its kind — the role-guard capture (before the `with` block) and the admin
notification (after it) run without the table mutex, while the blocking
thread's stack capture, the cancellation delivery, the document rendering and
the warning capture all run while `database_write_lock` is held. -/
theorem c9_amended (c : Collab) (tid : Nat) (mw wt t0 : Int)
    (tb : Option HolderState) (sched : List (Int × Option HolderState))
    (p : Ev × Bool)
    (hp : p ∈ (get_db_lock_run c tid mw wt t0 tb sched).events) :
    p.2 = evHeld p.1 := by
  revert hp
  unfold get_db_lock_run
  split_ifs
  · intro hp; simp at hp
  · intro hp
    simp at hp
    subst hp
    rfl
  · intro hp; simp at hp
  · exact fun hp => runBody_events_held c tid mw wt t0 _ sched tb
      (by intro q hq; simp at hq; subst hq; rfl) p hp
  · exact fun hp => runBody_events_held c tid mw wt t0 _ sched tb
      (by intro q hq; simp at hq) p hp

/-- Witness for `c9_amended`: the admin notification of the `cexSched`
takeover is recorded with the mutex released. -/
theorem c9_amended_witness :
    (Ev.notifyAdmin, false) ∈ (get_db_lock_run allOk 2 120 30 0
      (some ⟨1, 0, 1, false⟩) cexSched).events ∧
    (Ev.notifyAdmin, false).2 = evHeld (Ev.notifyAdmin, false).1 :=
  ⟨by decide, c9_amended allOk 2 120 30 0 (some ⟨1, 0, 1, false⟩) cexSched
    (Ev.notifyAdmin, false) (by decide)⟩

/-- The lock-state core of the wait loop's result does not depend on the
collaborator configuration or on the warned flags: the diagnostics blocks
are caught internally (lines 103-104, 115-116) and only change what is
logged, never which branch the loop takes. -/
theorem waitLoop_core_indep (c c' : Collab) (mw wt st : Int) :
    ∀ (sched : List (Int × Option HolderState)) (bH : Nat) (bA : Int)
      (bW bW' : Bool) (cT : Int) (evs evs' : List (Ev × Bool))
      (wc wc' : Nat),
      loopCore (waitLoop c mw wt st bH bA bW cT evs wc sched) =
        loopCore (waitLoop c' mw wt st bH bA bW' cT evs' wc' sched) := by
  intro sched
  induction sched with
  | nil => intros; rfl
  | cons obs rest ih =>
    intro bH bA bW bW' cT evs evs' wc wc'
    obtain ⟨t0, tbl⟩ := obs
    cases tbl with
    | none => rfl
    | some s =>
      simp only [waitLoop]
      by_cases hp : s.holder = bH ∧ s.acquired_at = bA
      · rw [if_pos hp, if_pos hp]
        by_cases h1 : t0 - st > mw
        · rw [if_pos h1, if_pos h1]
          rfl
        · rw [if_neg h1, if_neg h1]
          by_cases h2 : t0 - cT > wt
          · rw [if_pos h2, if_pos h2]
            split_ifs <;> apply ih
          · rw [if_neg h2, if_neg h2]
            apply ih
      · rw [if_neg hp, if_neg hp]
        apply ih

theorem runBody_diag_indep (c : Collab) (tid : Nat) (mw wt t0 : Int)
    (preEvs preEvs' : List (Ev × Bool))
    (sched : List (Int × Option HolderState)) (tb : Option HolderState) :
    (runBody c tid mw wt t0 preEvs sched tb).table =
      (runBody (diagNormalize c) tid mw wt t0 preEvs' sched tb).table ∧
    (runBody c tid mw wt t0 preEvs sched tb).tookOver =
      (runBody (diagNormalize c) tid mw wt t0 preEvs' sched tb).tookOver := by
  cases tb with
  | none => exact ⟨rfl, rfl⟩
  | some s =>
    simp only [runBody]
    by_cases h3 : s.holder = tid
    · rw [if_pos h3, if_pos h3]
      exact ⟨rfl, rfl⟩
    · rw [if_neg h3, if_neg h3]
      have hcore := waitLoop_core_indep c (diagNormalize c) mw wt t0 sched
        s.holder s.acquired_at s.warned s.warned t0 preEvs preEvs' 0 0
      revert hcore
      cases waitLoop c mw wt t0 s.holder s.acquired_at s.warned t0 preEvs 0
          sched with
      | starved evs wc =>
        cases waitLoop (diagNormalize c) mw wt t0 s.holder s.acquired_at
            s.warned t0 preEvs' 0 sched with
        | starved evs2 wc2 => intro _; exact ⟨rfl, rfl⟩
        | finished iT2 tk2 tt2 v2 er2 evs2 wc2 =>
          intro hcore
          simp [loopCore] at hcore
      | finished iT tk tt v er evs wc =>
        cases waitLoop (diagNormalize c) mw wt t0 s.holder s.acquired_at
            s.warned t0 preEvs' 0 sched with
        | starved evs2 wc2 =>
          intro hcore
          simp [loopCore] at hcore
        | finished iT2 tk2 tt2 v2 er2 evs2 wc2 =>
          intro hcore
          simp only [loopCore, Option.some_inj, Prod.mk.injEq] at hcore
          obtain ⟨hiT, htk, -, -⟩ := hcore
          subst hiT
          subst htk
          rw [afterLoop_table, afterLoop_table, afterLoop_tookOver,
            afterLoop_tookOver]
          exact ⟨rfl, rfl⟩

theorem runBody_not_raised (c : Collab) (tid : Nat) (mw wt t0 : Int)
    (preEvs : List (Ev × Bool)) (sched : List (Int × Option HolderState))
    (tb : Option HolderState) (hn : c.notifyOk = true) :
    (runBody c tid mw wt t0 preEvs sched tb).outcome.isRaised = false := by
  cases tb with
  | none => rfl
  | some s =>
    simp only [runBody]
    split_ifs with h3
    · rfl
    · exact afterLoop_not_raised c tid (some s) _ hn

theorem runBody_took_install (c : Collab) (tid : Nat) (mw wt t0 : Int)
    (preEvs : List (Ev × Bool)) (sched : List (Int × Option HolderState))
    (tb : Option HolderState)
    (h : (runBody c tid mw wt t0 preEvs sched tb).tookOver = true) :
    ∃ t, (runBody c tid mw wt t0 preEvs sched tb).table =
      some ⟨tid, t, 1, false⟩ := by
  cases tb with
  | none => simp [runBody] at h
  | some s =>
    simp only [runBody] at h ⊢
    by_cases h3 : s.holder = tid
    · rw [if_pos h3] at h
      simp at h
    · rw [if_neg h3] at h ⊢
      revert h
      cases hlo : waitLoop c mw wt t0 s.holder s.acquired_at s.warned t0
          preEvs 0 sched with
      | starved evs wc => intro h; simp [afterLoop] at h
      | finished iT tk tt v er evs wc =>
        intro _
        exact ⟨iT, afterLoop_table c tid (some s) iT tk tt v er evs wc⟩

/-- C5 (amended): failures of the collaborators invoked inside the guarded
blocks — the takeover stack capture and traceback formatting, the
cancellation delivery, the document rendering (all caught at lines 103-104,
with the cancellation additionally at lines 83-91) and the warning capture
(caught at lines 115-116) — are reduced to logging: no exception escapes,
the resulting table and the takeover decision are exactly those of a run
with all those collaborators healthy, and a forced takeover still overwrites
the `HolderState` with the requesting thread, a fresh timestamp and count 1.
Failures of the deployment-role query, of its traceback capture, and of the
admin-notification delivery, by contrast, do escape to the caller
(see the counterexample). -/
theorem c5_amended (c : Collab) (tid : Nat) (mw wt t0 : Int)
    (tb : Option HolderState) (sched : List (Int × Option HolderState))
    (hrq : c.roleQueryOk = true)
    (hrc : c.slaveMode = true → c.roleCaptureOk = true)
    (hn : c.notifyOk = true) :
    (get_db_lock_run c tid mw wt t0 tb sched).outcome.isRaised = false ∧
    (get_db_lock_run c tid mw wt t0 tb sched).table =
      (get_db_lock_run (diagNormalize c) tid mw wt t0 tb sched).table ∧
    (get_db_lock_run c tid mw wt t0 tb sched).tookOver =
      (get_db_lock_run (diagNormalize c) tid mw wt t0 tb sched).tookOver ∧
    ((get_db_lock_run c tid mw wt t0 tb sched).tookOver = true →
      ∃ t, (get_db_lock_run c tid mw wt t0 tb sched).table =
        some ⟨tid, t, 1, false⟩) := by
  have hno : ¬ (c.slaveMode = true ∧ c.roleCaptureOk = false) := by
    rintro ⟨hs, hcap⟩
    rw [hrc hs] at hcap
    simp at hcap
  have hrun : get_db_lock_run c tid mw wt t0 tb sched =
      runBody c tid mw wt t0
        (if c.slaveMode then [(Ev.roleCapture, false)] else []) sched tb := by
    unfold get_db_lock_run
    rw [if_neg (by simp [hrq]), if_neg hno]
  have hno' : ¬ ((diagNormalize c).slaveMode = true ∧
      (diagNormalize c).roleCaptureOk = false) := by
    rintro ⟨hs, hcap⟩
    exact hno ⟨hs, hcap⟩
  have hrun' : get_db_lock_run (diagNormalize c) tid mw wt t0 tb sched =
      runBody (diagNormalize c) tid mw wt t0
        (if c.slaveMode then [(Ev.roleCapture, false)] else []) sched tb := by
    unfold get_db_lock_run
    rw [if_neg (by simp [diagNormalize, hrq]), if_neg hno']
    rfl
  rw [hrun, hrun']
  obtain ⟨htab, htook⟩ := runBody_diag_indep c tid mw wt t0
    (if c.slaveMode then [(Ev.roleCapture, false)] else [])
    (if c.slaveMode then [(Ev.roleCapture, false)] else []) sched tb
  exact ⟨runBody_not_raised c tid mw wt t0 _ sched tb hn, htab, htook,
    runBody_took_install c tid mw wt t0 _ sched tb⟩

/-- Takeover diagnostics all failing, but role query, admin e-mail healthy. -/
def diagFailCollab : Collab :=
  ⟨false, true, true, false, false, false, false, true, true⟩

/-- Witness for `c5_amended`: with every takeover diagnostic failing, the
`cexSched` takeover still raises nothing and still installs thread 2. -/
theorem c5_amended_witness :
    (get_db_lock_run diagFailCollab 2 120 30 0 (some ⟨1, 0, 1, false⟩)
      cexSched).outcome.isRaised = false ∧
    (get_db_lock_run diagFailCollab 2 120 30 0 (some ⟨1, 0, 1, false⟩)
      cexSched).table =
      (get_db_lock_run (diagNormalize diagFailCollab) 2 120 30 0
        (some ⟨1, 0, 1, false⟩) cexSched).table ∧
    (get_db_lock_run diagFailCollab 2 120 30 0 (some ⟨1, 0, 1, false⟩)
      cexSched).tookOver =
      (get_db_lock_run (diagNormalize diagFailCollab) 2 120 30 0
        (some ⟨1, 0, 1, false⟩) cexSched).tookOver ∧
    ((get_db_lock_run diagFailCollab 2 120 30 0 (some ⟨1, 0, 1, false⟩)
      cexSched).tookOver = true →
      ∃ t, (get_db_lock_run diagFailCollab 2 120 30 0
        (some ⟨1, 0, 1, false⟩) cexSched).table = some ⟨2, t, 1, false⟩) :=
  c5_amended diagFailCollab 2 120 30 0 (some ⟨1, 0, 1, false⟩) cexSched rfl
    (fun h => absurd h (by decide)) rfl

end DatabaseWriteLock
